import Mathlib

/-!
Shallow embedding of the health-result ingestion pipeline of
traffic_monitor/manager/health.go: the batch collector loop
(healthResultManagerListen) and the batch processor (processHealthResult),
together with the shared-state stores they mutate.

Go maps are modelled as total functions with the Go zero-value default
(empty slice for the history map); Go map presence (the comma-ok idiom) is
modelled with Option. Timestamps are naturals supplied by an abstract clock,
durations are integers (Go time.Duration is a signed 64-bit count).
The two external computations (health.GetVitals, health.CalcAvailability)
live outside this package and are parameters of the embedding.
-/

namespace TrafficMonitor

/-- The vitals payload carried by a cache result. Its numeric content is
produced by the external health.GetVitals computation and never inspected by
the pipeline modelled here, so it is kept as an abstract integer payload. -/
structure Vitals where
  payload : Int
  deriving Repr, DecidableEq

/-- Model of cache.Result restricted to the fields processHealthResult reads
or writes: the cache name (ID), the poll identifier (PollID), the optional
poll error (Error, nil = none), and the vitals payload (Vitals). The
PollFinished channel is modelled by the list of poll IDs sent on it
(ProcessOutcome.signals below). -/
structure Result where
  id : String
  pollID : Nat
  error : Option String
  vitals : Vitals
  deriving Repr, DecidableEq

/-- The Go zero value of cache.Result, as produced by the declaration
var prevResult cache.Result in processHealthResult. -/
def emptyResult : Result :=
  { id := "", pollID := 0, error := none, vitals := { payload := 0 } }

/-- Model of the monitor-config snapshot (threadsafe.TrafficMonitorConfigMap)
restricted to the lookups processHealthResult performs: server name to
profile name (TrafficServer[id].Profile) and profile name to the configured
history count (Profile[p].Parameters.HistoryCount). Go map lookups return
the zero value for absent keys, so both are total functions; the history
count field is a signed integer in the configuration library. -/
structure TrafficMonitorConfigMap where
  trafficServerProfile : String → String
  profileHistoryCount : String → Int

/-- Go conversion uint64(x) of a signed integer x: reduction modulo 2^64
(two's-complement reinterpretation), as performed at line 178 of health.go. -/
def goUint64OfInt (i : Int) : Nat :=
  (i % (2 : Int) ^ 64).toNat

/-- The value of the local variable maxHistory at line 178 of health.go,
before the less-than-1 check: the configured history count of the cache's
profile, converted to uint64. -/
def rawMaxHistory (cfg : TrafficMonitorConfigMap) (id : String) : Nat :=
  goUint64OfInt (cfg.profileHistoryCount (cfg.trafficServerProfile id))

/-- The value of maxHistory after the check at lines 179-182 of health.go:
if the converted count is below 1 it is set to 1 (with only a log message). -/
def resolvedMaxHistory (cfg : TrafficMonitorConfigMap) (id : String) : Nat :=
  if rawMaxHistory cfg id < 1 then 1 else rawMaxHistory cfg id

/-- Modelled from the spec: the pruneHistory function is called by
processHealthResult but defined outside the files available here. The spec
describes history pruning as a pure function producing the new-entry-first
sequence truncated to the resolved maximum, so pruning keeps the first
(most recent) limit entries. -/
def pruneHistory (history : List Result) (limit : Nat) : List Result :=
  history.take limit

/-- The two external computations invoked by processHealthResult.
health.GetVitals enriches a result in place from the previous result and the
config snapshot; per the spec it is pure and only derives the vitals payload,
so it is modelled as the function computing the new payload.
health.CalcAvailability classifies the batch and mutates the local cache
status, the local CRStates and the event log; their contents are opaque to
this pipeline, so they are modelled as abstract values it transforms. -/
structure Externals where
  getVitals : Result → Result → TrafficMonitorConfigMap → Vitals
  calcAvailability : List Result → TrafficMonitorConfigMap → Int →
    Int → Int → List Int → Int × Int × List Int

/-- The mutable state visible to processHealthResult: the history store
(threadsafe.ResultHistory, a map from cache name to result list with empty
default), the duration store (threadsafe.DurationMap, presence-sensitive),
the process-local last-end-time table, the two counters, and the stores
owned by external collaborators. toData, localCacheStatus and localStates
are opaque payloads only read or replaced through the external availability
computation; events is the event log it appends to. -/
structure HealthState where
  healthHistory : String → List Result
  lastHealthDurations : String → Option Int
  lastHealthEndTimes : String → Option Nat
  fetchCount : Nat
  errorCount : Nat
  toData : Int
  monitorConfig : TrafficMonitorConfigMap
  localCacheStatus : Int
  localStates : Int
  events : List Int

/-- Accumulator of the per-result loop at lines 165-185 of health.go: the
working copy of the history map, the fetch counter, and the results slice as
mutated so far (line 175 writes the enriched result back into the slice). -/
structure LoopAcc where
  hist : String → List Result
  fetch : Nat
  processed : List Result

/-- The result value stored for one incoming result: lines 167-176 of
health.go. The previous result starts as the zero value and becomes the
last element of the cache's history snapshot when that history is non-empty;
an error-free result is enriched via the external vitals computation, an
errored result is left unchanged. -/
def storedResult (ext : Externals) (cfg : TrafficMonitorConfigMap)
    (hist : String → List Result) (r : Result) : Result :=
  let prevResult : Result := (hist r.id).getLastD emptyResult
  match r.error with
  | none => { r with vitals := ext.getVitals r prevResult cfg }
  | some _ => r

/-- The history-map update at line 184 of health.go: prepend the (possibly
enriched) result to its cache's list and prune to the resolved maximum. -/
def histUpdate (cfg : TrafficMonitorConfigMap) (hist : String → List Result)
    (r' : Result) : String → List Result :=
  fun c =>
    if c = r'.id then pruneHistory (r' :: hist r'.id) (resolvedMaxHistory cfg r'.id)
    else hist c

/-- One iteration of the per-result loop at lines 165-185 of health.go:
increment the fetch counter, enrich the result (when error-free), record the
mutated result into the slice, and update the working history copy. -/
def processOneResult (ext : Externals) (cfg : TrafficMonitorConfigMap)
    (acc : LoopAcc) (r : Result) : LoopAcc :=
  let r' := storedResult ext cfg acc.hist r
  { hist := histUpdate cfg acc.hist r'
    fetch := acc.fetch + 1
    processed := acc.processed ++ [r'] }

/-- The history map produced by running the per-result loop over a list of
results, starting from a given history copy. -/
def histFold (ext : Externals) (cfg : TrafficMonitorConfigMap) :
    (String → List Result) → List Result → (String → List Result)
  | hist, [] => hist
  | hist, r :: rest =>
    histFold ext cfg (histUpdate cfg hist (storedResult ext cfg hist r)) rest

/-- The sequence of stored (possibly enriched) results produced by the
per-result loop, in processing order; entry i is the value written back into
the results slice for input i. -/
def storedTrace (ext : Externals) (cfg : TrafficMonitorConfigMap) :
    (String → List Result) → List Result → List Result
  | _, [] => []
  | hist, r :: rest =>
    let r' := storedResult ext cfg hist r
    r' :: storedTrace ext cfg (histUpdate cfg hist r') rest

/-- The sublist of a result sequence belonging to one cache, in order:
used to state per-cache properties of the interleaved processing loops. -/
def storedFor (c : String) : List Result → List Result
  | [] => []
  | r :: rest => if r.id = c then r :: storedFor c rest else storedFor c rest

/-- The duration-and-end-time loop at lines 193-199 of health.go, iterating
over the mutated results slice with the iteration index driving the clock:
when the cache has a recorded end time, record the elapsed time since it in
the duration copy; unconditionally set the cache's end time to now. -/
def durationLoop (clock : Nat → Nat) :
    Nat → List Result → (String → Option Nat) → (String → Option Int) →
    (String → Option Nat) × (String → Option Int)
  | _, [], endTimes, durs => (endTimes, durs)
  | i, r :: rest, endTimes, durs =>
    let durs' : String → Option Int :=
      match endTimes r.id with
      | some t0 => fun c => if c = r.id then some ((clock i : Int) - t0) else durs c
      | none => durs
    let endTimes' : String → Option Nat :=
      fun c => if c = r.id then some (clock i) else endTimes c
    durationLoop clock (i + 1) rest endTimes' durs'

/-- Per-cache trace of the duration bookkeeping: folds the list of instants
at which one cache's results were processed over its (end time, duration)
pair. Used to characterize durationLoop one cache at a time. -/
def durTrace : Option Nat → Option Int → List Nat → Option Nat × Option Int
  | t0, d, [] => (t0, d)
  | t0, d, t :: rest =>
    durTrace (some t)
      (match t0 with
       | some s => some ((t : Int) - s)
       | none => d) rest

/-- The instants (by the given clock) at which the results belonging to one
cache are visited by the duration loop, with the index of the first listed
result given explicitly. -/
def occTimes (clock : Nat → Nat) (c : String) : Nat → List Result → List Nat
  | _, [] => []
  | i, r :: rest =>
    if r.id = c then clock i :: occTimes clock c (i + 1) rest
    else occTimes clock c (i + 1) rest

/-- Everything observable about one call of processHealthResult: the state
after the call, the results slice after its in-place mutation (visible to
the caller in Go), and the poll IDs sent on the PollFinished channels by the
deferred loop at lines 155-160, in sending order. -/
structure ProcessOutcome where
  state : HealthState
  processed : List Result
  signals : List Nat

/-- processHealthResult (lines 136-201 of health.go): an empty batch returns
at once; otherwise snapshots are taken, the per-result loop runs, the batch
is handed to the external availability computation, the history store is
replaced, the duration loop runs on a copy which then replaces the duration
store, and the deferred loop signals completion of every result. -/
def processHealthResult (ext : Externals) (clock : Nat → Nat)
    (st : HealthState) (results : List Result) : ProcessOutcome :=
  if results.length = 0 then ⟨st, results, []⟩
  else
    let toDataCopy := st.toData
    let monitorConfigCopy := st.monitorConfig
    let acc := results.foldl (processOneResult ext monitorConfigCopy)
      ⟨st.healthHistory, st.fetchCount, []⟩
    let ca := ext.calcAvailability acc.processed monitorConfigCopy toDataCopy
      st.localCacheStatus st.localStates st.events
    let dl := durationLoop clock 0 acc.processed st.lastHealthEndTimes
      st.lastHealthDurations
    ⟨{ st with
        healthHistory := acc.hist
        fetchCount := acc.fetch
        localCacheStatus := ca.1
        localStates := ca.2.1
        events := ca.2.2
        lastHealthEndTimes := dl.1
        lastHealthDurations := dl.2 },
      acc.processed,
      acc.processed.map (fun r => r.pollID)⟩

/-- Sequential processing of a list of batches, each through
processHealthResult; batch i uses the clock clocks i (the instants of later
batches come from later clocks). Models successive invocations of process
in healthResultManagerListen. -/
def processBatches (ext : Externals) (clocks : Nat → Nat → Nat)
    (st : HealthState) : List (List Result) → HealthState
  | [] => st
  | b :: bs =>
    processBatches ext (fun i => clocks (i + 1))
      (processHealthResult ext (clocks 0) st b).state bs

/-- Concatenation of the mutated results slices over a sequence of batches:
all stored entries, in processing order. -/
def batchTrace (ext : Externals) (clocks : Nat → Nat → Nat)
    (st : HealthState) : List (List Result) → List Result
  | [] => []
  | b :: bs =>
    (processHealthResult ext (clocks 0) st b).processed ++
      batchTrace ext (fun i => clocks (i + 1))
        (processHealthResult ext (clocks 0) st b).state bs

/-- One select decision of the inner loop at lines 115-131 of health.go:
the ticker fired (tick, outer select case), the ticker had not fired and the
channel yielded a result (recv, inner select case), or neither was ready
(empty, inner select default). -/
inductive ChanEvent where
  | tick : ChanEvent
  | recv : Result → ChanEvent
  | empty : ChanEvent
  deriving Repr, DecidableEq

/-- The inner loop of healthResultManagerListen (lines 115-131 of health.go)
driven by a finite trace of select decisions: a tick or an empty channel
flushes the accumulated batch to process; a received result extends the
batch and loops. none means the observation window ended before a flush. -/
def innerLoop (batch : List Result) : List ChanEvent → Option (List Result)
  | [] => none
  | ChanEvent.tick :: _ => some batch
  | ChanEvent.recv r :: rest => innerLoop (batch ++ [r]) rest
  | ChanEvent.empty :: _ => some batch

/-- The results received before the first non-recv decision of a trace: the
amount by which the inner loop extends the batch before flushing. -/
def recvsBeforeFlush : List ChanEvent → List Result
  | [] => []
  | ChanEvent.tick :: _ => []
  | ChanEvent.empty :: _ => []
  | ChanEvent.recv r :: rest => r :: recvsBeforeFlush rest

/-- One iteration of the listen loop after the batch has been opened: run
the inner loop over the decision trace and hand the flushed batch to
processHealthResult (the process closure at lines 89-106 of health.go). -/
def listenIteration (ext : Externals) (clock : Nat → Nat) (st : HealthState)
    (batch : List Result) (trace : List ChanEvent) : Option ProcessOutcome :=
  (innerLoop batch trace).map (processHealthResult ext clock st)

/-! Concrete configurations, results and states used by witnesses and
counterexamples. -/

/-- A configuration mapping every server to profile p with history count 2. -/
def cfgTwo : TrafficMonitorConfigMap :=
  { trafficServerProfile := fun _ => "p", profileHistoryCount := fun _ => 2 }

/-- A configuration whose every profile has the configured history count -1. -/
def cfgNeg : TrafficMonitorConfigMap :=
  { trafficServerProfile := fun _ => "p", profileHistoryCount := fun _ => -1 }

/-- Externals whose vitals computation copies the previous result's vitals
payload (so the stored vitals reveal which previous result was consulted)
and whose availability computation leaves the stores unchanged. -/
def extProbe : Externals :=
  { getVitals := fun _ prev _ => prev.vitals
    calcAvailability := fun _ _ _ s t e => (s, t, e) }

/-- Error-free result A for cache edge-1, poll 1, vitals payload 10. -/
def resA : Result := { id := "edge-1", pollID := 1, error := none, vitals := { payload := 10 } }

/-- Error-free result B for cache edge-1, poll 2, vitals payload 20. -/
def resB : Result := { id := "edge-1", pollID := 2, error := none, vitals := { payload := 20 } }

/-- Error-free result C for cache edge-1, poll 3, vitals payload 0. -/
def resC : Result := { id := "edge-1", pollID := 3, error := none, vitals := { payload := 0 } }

/-- A result for cache edge-1 carrying a poll error. -/
def resErr : Result :=
  { id := "edge-1", pollID := 7, error := some "connection refused", vitals := { payload := 0 } }

/-- A state with the given configuration, empty stores, no recorded end
times and the given fetch count. -/
def mkState (cfg : TrafficMonitorConfigMap) (fetch : Nat) : HealthState :=
  { healthHistory := fun _ => []
    lastHealthDurations := fun _ => none
    lastHealthEndTimes := fun _ => none
    fetchCount := fetch
    errorCount := 0
    toData := 0
    monitorConfig := cfg
    localCacheStatus := 0
    localStates := 0
    events := [] }

/-- A state whose history for edge-1 already holds B then A (most recent
first: B was processed after A), under the history-count-2 configuration. -/
def stBA : HealthState :=
  { mkState cfgTwo 0 with
      healthHistory := fun c => if c = "edge-1" then [resB, resA] else [] }

/-- The identity clock. -/
def idClock : Nat → Nat := fun i => i

/-- The scenario of the spec: one batch of the three error-free results A,
B, C for cache edge-1 under history count 2, processed from empty history,
no recorded end time and fetch counter f. -/
def c5Out (ext : Externals) (clock : Nat → Nat) (f : Nat) : ProcessOutcome :=
  processHealthResult ext clock (mkState cfgTwo f) [resA, resB, resC]

/-! Helper lemmas about the per-result loop. -/

theorem storedResult_id (ext : Externals) (cfg : TrafficMonitorConfigMap)
    (hist : String → List Result) (r : Result) :
    (storedResult ext cfg hist r).id = r.id := by
  unfold storedResult
  cases r.error <;> rfl

theorem storedResult_pollID (ext : Externals) (cfg : TrafficMonitorConfigMap)
    (hist : String → List Result) (r : Result) :
    (storedResult ext cfg hist r).pollID = r.pollID := by
  unfold storedResult
  cases r.error <;> rfl

theorem resolvedMaxHistory_pos (cfg : TrafficMonitorConfigMap) (id : String) :
    1 ≤ resolvedMaxHistory cfg id := by
  unfold resolvedMaxHistory
  split
  · exact Nat.le_refl 1
  · omega

theorem take_cons_take (m : Nat) (hm : 1 ≤ m) (r : Result) (l : List Result) :
    (r :: l.take m).take m = (r :: l).take m := by
  cases m with
  | zero => omega
  | succ n =>
    have hmin : min n (n + 1) = n := Nat.min_eq_left (Nat.le_succ n)
    rw [List.take_succ_cons, List.take_succ_cons, List.take_take, hmin]

theorem foldl_processOneResult_hist (ext : Externals)
    (cfg : TrafficMonitorConfigMap) (results : List Result) :
    ∀ acc : LoopAcc,
      (results.foldl (processOneResult ext cfg) acc).hist =
        histFold ext cfg acc.hist results := by
  induction results with
  | nil => intro acc; rfl
  | cons r rest ih =>
    intro acc
    simpa [histFold, processOneResult] using ih (processOneResult ext cfg acc r)

theorem foldl_processOneResult_fetch (ext : Externals)
    (cfg : TrafficMonitorConfigMap) (results : List Result) :
    ∀ acc : LoopAcc,
      (results.foldl (processOneResult ext cfg) acc).fetch =
        acc.fetch + results.length := by
  induction results with
  | nil => intro acc; rfl
  | cons r rest ih =>
    intro acc
    have h := ih (processOneResult ext cfg acc r)
    simp only [List.foldl_cons, List.length_cons] at h ⊢
    rw [h]
    simp [processOneResult]
    omega

theorem foldl_processOneResult_processed (ext : Externals)
    (cfg : TrafficMonitorConfigMap) (results : List Result) :
    ∀ acc : LoopAcc,
      (results.foldl (processOneResult ext cfg) acc).processed =
        acc.processed ++ storedTrace ext cfg acc.hist results := by
  induction results with
  | nil => intro acc; simp [storedTrace]
  | cons r rest ih =>
    intro acc
    have h := ih (processOneResult ext cfg acc r)
    simp only [List.foldl_cons] at h ⊢
    rw [h]
    simp [processOneResult, storedTrace]

theorem storedTrace_map_pollID (ext : Externals)
    (cfg : TrafficMonitorConfigMap) (results : List Result) :
    ∀ hist : String → List Result,
      (storedTrace ext cfg hist results).map (fun r => r.pollID) =
        results.map (fun r => r.pollID) := by
  induction results with
  | nil => intro hist; rfl
  | cons r rest ih =>
    intro hist
    simp only [storedTrace, List.map_cons, storedResult_pollID]
    rw [ih]

theorem storedTrace_map_id (ext : Externals)
    (cfg : TrafficMonitorConfigMap) (results : List Result) :
    ∀ hist : String → List Result,
      (storedTrace ext cfg hist results).map (fun r => r.id) =
        results.map (fun r => r.id) := by
  induction results with
  | nil => intro hist; rfl
  | cons r rest ih =>
    intro hist
    simp only [storedTrace, List.map_cons, storedResult_id]
    rw [ih]

theorem histFold_char (ext : Externals) (cfg : TrafficMonitorConfigMap)
    (c : String) (results : List Result) :
    ∀ (hist : String → List Result) (L : List Result),
      hist c = L.reverse.take (resolvedMaxHistory cfg c) →
      histFold ext cfg hist results c =
        ((L ++ storedFor c (storedTrace ext cfg hist results)).reverse).take
          (resolvedMaxHistory cfg c) := by
  induction results with
  | nil =>
    intro hist L h
    simpa [histFold, storedTrace, storedFor] using h
  | cons r rest ih =>
    intro hist L h
    by_cases hid : (storedResult ext cfg hist r).id = c
    · have hnew : histUpdate cfg hist (storedResult ext cfg hist r) c =
          ((L ++ [storedResult ext cfg hist r]).reverse).take (resolvedMaxHistory cfg c) := by
        unfold histUpdate pruneHistory
        rw [if_pos hid.symm, hid, h,
          take_cons_take _ (resolvedMaxHistory_pos cfg c)]
        simp
      have hrec := ih (histUpdate cfg hist (storedResult ext cfg hist r))
        (L ++ [storedResult ext cfg hist r]) hnew
      rw [histFold, hrec]
      simp [storedTrace, storedFor, hid]
    · have hnew : histUpdate cfg hist (storedResult ext cfg hist r) c =
          L.reverse.take (resolvedMaxHistory cfg c) := by
        unfold histUpdate
        rw [if_neg (fun hc => hid hc.symm)]
        exact h
      have hrec := ih (histUpdate cfg hist (storedResult ext cfg hist r)) L hnew
      rw [histFold, hrec]
      simp [storedTrace, storedFor, hid]

theorem durationLoop_proj (clock : Nat → Nat) (c : String) (rs : List Result) :
    ∀ (i : Nat) (endTimes : String → Option Nat) (durs : String → Option Int),
      ((durationLoop clock i rs endTimes durs).1 c,
        (durationLoop clock i rs endTimes durs).2 c) =
        durTrace (endTimes c) (durs c) (occTimes clock c i rs) := by
  induction rs with
  | nil => intro i endTimes durs; rfl
  | cons r rest ih =>
    intro i endTimes durs
    by_cases h : r.id = c
    · subst h
      cases het : endTimes r.id with
      | some t0 =>
        simp only [durationLoop, occTimes, durTrace, het, if_pos, ih]
      | none =>
        simp only [durationLoop, occTimes, durTrace, het, if_pos, ih]
    · have hc : c ≠ r.id := fun hc => h hc.symm
      cases het : endTimes r.id with
      | some t0 =>
        simp only [durationLoop, occTimes, het, if_neg h, ih]
        simp [if_neg hc]
      | none =>
        simp only [durationLoop, occTimes, het, if_neg h, ih]
        simp [if_neg hc]

theorem occTimes_congr (clock : Nat → Nat) (c : String) :
    ∀ (l1 l2 : List Result) (i : Nat),
      l1.map (fun r => r.id) = l2.map (fun r => r.id) →
      occTimes clock c i l1 = occTimes clock c i l2 := by
  intro l1
  induction l1 with
  | nil =>
    intro l2 i h
    cases l2 with
    | nil => rfl
    | cons b bs => simp at h
  | cons a as ih =>
    intro l2 i h
    cases l2 with
    | nil => simp at h
    | cons b bs =>
      simp only [List.map_cons, List.cons.injEq] at h
      rw [occTimes, occTimes, h.1, ih bs (i + 1) h.2]

theorem durTrace_fst_last (t : Nat) (occ : List Nat) :
    ∀ (t0 : Option Nat) (d : Option Int),
      (durTrace t0 d (occ ++ [t])).1 = some t := by
  induction occ with
  | nil => intro t0 d; cases t0 <;> rfl
  | cons s rest ih =>
    intro t0 d
    simp only [List.cons_append, durTrace]
    exact ih _ _

theorem durTrace_snd_last_two (t' t : Nat) (occ : List Nat) :
    ∀ (t0 : Option Nat) (d : Option Int),
      (durTrace t0 d (occ ++ [t', t])).2 = some ((t : Int) - t') := by
  induction occ with
  | nil => intro t0 d; cases t0 <;> rfl
  | cons s rest ih =>
    intro t0 d
    simp only [List.cons_append, durTrace]
    exact ih _ _

theorem processHealthResult_processed_eq (ext : Externals) (clock : Nat → Nat)
    (st : HealthState) (results : List Result) :
    (processHealthResult ext clock st results).processed =
      storedTrace ext st.monitorConfig st.healthHistory results := by
  unfold processHealthResult
  by_cases h : results.length = 0
  · rw [if_pos h]
    have hnil : results = [] := List.length_eq_zero.mp h
    subst hnil
    rfl
  · rw [if_neg h]
    simp [foldl_processOneResult_processed]

theorem processHealthResult_signals_eq (ext : Externals) (clock : Nat → Nat)
    (st : HealthState) (results : List Result) :
    (processHealthResult ext clock st results).signals =
      results.map (fun r => r.pollID) := by
  unfold processHealthResult
  by_cases h : results.length = 0
  · rw [if_pos h]
    have hnil : results = [] := List.length_eq_zero.mp h
    subst hnil
    rfl
  · rw [if_neg h]
    simp [foldl_processOneResult_processed, storedTrace_map_pollID]

theorem processHealthResult_healthHistory_eq (ext : Externals)
    (clock : Nat → Nat) (st : HealthState) (results : List Result) :
    (processHealthResult ext clock st results).state.healthHistory =
      histFold ext st.monitorConfig st.healthHistory results := by
  unfold processHealthResult
  by_cases h : results.length = 0
  · rw [if_pos h]
    have hnil : results = [] := List.length_eq_zero.mp h
    subst hnil
    rfl
  · rw [if_neg h]
    simp [foldl_processOneResult_hist]

theorem processHealthResult_fetchCount_eq (ext : Externals)
    (clock : Nat → Nat) (st : HealthState) (results : List Result) :
    (processHealthResult ext clock st results).state.fetchCount =
      st.fetchCount + results.length := by
  unfold processHealthResult
  by_cases h : results.length = 0
  · rw [if_pos h]
    have hnil : results = [] := List.length_eq_zero.mp h
    subst hnil
    rfl
  · rw [if_neg h]
    simp [foldl_processOneResult_fetch]

theorem processHealthResult_endTimes_eq (ext : Externals) (clock : Nat → Nat)
    (st : HealthState) (results : List Result) :
    (processHealthResult ext clock st results).state.lastHealthEndTimes =
      (durationLoop clock 0 (storedTrace ext st.monitorConfig st.healthHistory results)
        st.lastHealthEndTimes st.lastHealthDurations).1 := by
  unfold processHealthResult
  by_cases h : results.length = 0
  · rw [if_pos h]
    have hnil : results = [] := List.length_eq_zero.mp h
    subst hnil
    rfl
  · rw [if_neg h]
    simp [foldl_processOneResult_processed]

theorem processHealthResult_durations_eq (ext : Externals) (clock : Nat → Nat)
    (st : HealthState) (results : List Result) :
    (processHealthResult ext clock st results).state.lastHealthDurations =
      (durationLoop clock 0 (storedTrace ext st.monitorConfig st.healthHistory results)
        st.lastHealthEndTimes st.lastHealthDurations).2 := by
  unfold processHealthResult
  by_cases h : results.length = 0
  · rw [if_pos h]
    have hnil : results = [] := List.length_eq_zero.mp h
    subst hnil
    rfl
  · rw [if_neg h]
    simp [foldl_processOneResult_processed]

theorem processHealthResult_monitorConfig_eq (ext : Externals)
    (clock : Nat → Nat) (st : HealthState) (results : List Result) :
    (processHealthResult ext clock st results).state.monitorConfig =
      st.monitorConfig := by
  unfold processHealthResult
  split <;> rfl

/-- C2: for every batch handed to processHealthResult, the deferred loop
sends exactly one completion signal per result of the batch, in order (the
signal list is precisely the poll IDs of the batch), so the signal count
equals the result count and each result is signaled exactly once. The
embedding is a total function, so this holds on its sole exit path, for
every behavior of the external computations. -/
theorem claim_C2_completion_signals (ext : Externals) (clock : Nat → Nat)
    (st : HealthState) (results : List Result) (hne : results ≠ []) :
    (processHealthResult ext clock st results).signals =
      results.map (fun r => r.pollID) ∧
    (processHealthResult ext clock st results).signals.length = results.length := by
  refine ⟨processHealthResult_signals_eq ext clock st results, ?_⟩
  rw [processHealthResult_signals_eq ext clock st results]
  exact List.length_map results _

/-- Witness for C2: processing the concrete batch A, B, C signals exactly
the poll IDs 1, 2, 3 in order. -/
theorem claim_C2_completion_signals_witness :
    (processHealthResult extProbe idClock (mkState cfgTwo 0)
      [resA, resB, resC]).signals = [resA, resB, resC].map (fun r => r.pollID) ∧
    (processHealthResult extProbe idClock (mkState cfgTwo 0)
      [resA, resB, resC]).signals.length = [resA, resB, resC].length :=
  claim_C2_completion_signals extProbe idClock (mkState cfgTwo 0)
    [resA, resB, resC] (by decide)

/-- C8: calling processHealthResult with an empty batch is a no-op: the
state is returned unchanged (no store is mutated), the results slice is
untouched and no completion signal is sent. -/
theorem claim_C8_empty_batch_noop (ext : Externals) (clock : Nat → Nat)
    (st : HealthState) :
    processHealthResult ext clock st [] = ⟨st, [], []⟩ := rfl

/-- C10: processHealthResult never changes the error counter: for every
batch, including batches whose results carry errors, the errorCount field of
the state is returned unchanged. -/
theorem claim_C10_errorCount_unchanged (ext : Externals) (clock : Nat → Nat)
    (st : HealthState) (results : List Result) :
    (processHealthResult ext clock st results).state.errorCount =
      st.errorCount := by
  unfold processHealthResult
  split <;> rfl

theorem head?_take_cons (m : Nat) (hm : 1 ≤ m) (x : Result) (l : List Result) :
    ((x :: l).take m).head? = some x := by
  cases m with
  | zero => omega
  | succ n => rw [List.take_succ_cons]; rfl

theorem storedResult_of_error (ext : Externals) (cfg : TrafficMonitorConfigMap)
    (hist : String → List Result) (r : Result) (e : String)
    (he : r.error = some e) :
    storedResult ext cfg hist r = r := by
  unfold storedResult
  rw [he]

theorem mem_storedTrace_of_error (ext : Externals)
    (cfg : TrafficMonitorConfigMap) (r : Result) (e : String)
    (he : r.error = some e) (results : List Result) :
    ∀ hist : String → List Result, r ∈ results →
      r ∈ storedTrace ext cfg hist results := by
  induction results with
  | nil => intro hist hmem; cases hmem
  | cons a rest ih =>
    intro hist hmem
    rw [storedTrace]
    rcases List.mem_cons.mp hmem with heq | htail
    · subst heq
      rw [storedResult_of_error ext cfg hist r e he]
      exact List.mem_cons_self r _
    · exact List.mem_cons_of_mem _ (ih _ htail)

/-- C1 is false on the code: the previous result consulted by the vitals
enrichment is the last element of the history snapshot, not its head. With
edge-1 history holding resB (most recent, head, payload 20) then resA
(oldest, payload 10), and a probing vitals computation that stores the
consulted previous result's payload, processing resC stores payload 10 -
resA's, the oldest entry - although the head of the snapshot is resB. -/
theorem claim_C1_counterexample :
    ((processHealthResult extProbe idClock stBA [resC]).state.healthHistory
        "edge-1").head?.map (fun x => x.vitals) = some { payload := 10 } ∧
    (stBA.healthHistory "edge-1").head? = some resB ∧
    resB.vitals = { payload := 20 } ∧
    ({ payload := 10 } : Vitals) ≠ { payload := 20 } := by decide

/-- C1 amended: for every result processed against a non-empty history
snapshot of its cache, the previous result used for vitals enrichment is
the LAST entry of the most-recent-first snapshot (the oldest retained
entry): the entry stored at the head of the cache's updated history is the
result enriched against that last entry. -/
theorem claim_C1_amended_previous_is_last_entry (ext : Externals)
    (clock : Nat → Nat) (st : HealthState) (r : Result)
    (h1 : st.healthHistory r.id ≠ []) (h2 : r.error = none) :
    ((processHealthResult ext clock st [r]).state.healthHistory r.id).head? =
      some { r with vitals :=
        ext.getVitals r ((st.healthHistory r.id).getLast h1) st.monitorConfig } := by
  rw [processHealthResult_healthHistory_eq]
  show (histFold ext st.monitorConfig
    (histUpdate st.monitorConfig st.healthHistory
      (storedResult ext st.monitorConfig st.healthHistory r)) [] r.id).head? = _
  rw [histFold]
  unfold histUpdate
  rw [if_pos (storedResult_id ext st.monitorConfig st.healthHistory r).symm,
    storedResult_id]
  unfold pruneHistory
  rw [head?_take_cons _ (resolvedMaxHistory_pos st.monitorConfig r.id)]
  unfold storedResult
  rw [h2]
  have hlast : (st.healthHistory r.id).getLastD emptyResult =
      (st.healthHistory r.id).getLast h1 := by
    rw [List.getLastD_eq_getLast?, List.getLast?_eq_getLast_of_ne_nil h1]
    rfl
  rw [hlast]

/-- Witness for the amended C1: processing resC against the concrete
history resB, resA yields at the head of the updated history the result
resC enriched against the last entry resA. -/
theorem claim_C1_amended_previous_is_last_entry_witness :
    ((processHealthResult extProbe idClock stBA [resC]).state.healthHistory
        resC.id).head? =
      some { resC with vitals := (extProbe.getVitals resC
        ((stBA.healthHistory resC.id).getLast (by decide)) stBA.monitorConfig) } :=
  claim_C1_amended_previous_is_last_entry extProbe idClock stBA resC
    (by decide) (by decide)

/-- C7: a result carrying a non-nil error skips vitals enrichment yet is
not discarded: the loop body prepends it unchanged (for every behavior of
the external vitals computation) at the head of its cache's history, it is
left unchanged in the results slice, and its completion signal is still
sent. -/
theorem claim_C7_errored_result_kept (ext : Externals) (clock : Nat → Nat)
    (st : HealthState) (results : List Result) (r : Result) (e : String)
    (he : r.error = some e) :
    (∀ (cfg : TrafficMonitorConfigMap) (acc : LoopAcc),
      ((processOneResult ext cfg acc r).hist r.id).head? = some r) ∧
    (r ∈ results → r ∈ (processHealthResult ext clock st results).processed) ∧
    (r ∈ results →
      r.pollID ∈ (processHealthResult ext clock st results).signals) := by
  refine ⟨?_, ?_, ?_⟩
  · intro cfg acc
    unfold processOneResult
    rw [storedResult_of_error ext cfg acc.hist r e he]
    show ((histUpdate cfg acc.hist r) r.id).head? = some r
    unfold histUpdate
    rw [if_pos rfl]
    unfold pruneHistory
    exact head?_take_cons _ (resolvedMaxHistory_pos cfg r.id) r _
  · intro hmem
    rw [processHealthResult_processed_eq]
    exact mem_storedTrace_of_error ext st.monitorConfig r e he results _ hmem
  · intro hmem
    rw [processHealthResult_signals_eq]
    exact List.mem_map_of_mem _ hmem

/-- Witness for C7: the concrete errored result resErr is at the head of
the updated history, kept in the processed slice and signaled. -/
theorem claim_C7_errored_result_kept_witness :
    ((processOneResult extProbe cfgTwo ⟨fun _ => [], 0, []⟩ resErr).hist
        resErr.id).head? = some resErr ∧
    resErr ∈ (processHealthResult extProbe idClock (mkState cfgTwo 0)
      [resA, resErr]).processed ∧
    resErr.pollID ∈ (processHealthResult extProbe idClock (mkState cfgTwo 0)
      [resA, resErr]).signals := by
  have h := claim_C7_errored_result_kept extProbe idClock (mkState cfgTwo 0)
    [resA, resErr] resErr "connection refused" (by decide)
  exact ⟨h.1 cfgTwo ⟨fun _ => [], 0, []⟩,
    h.2.1 (by decide), h.2.2 (by decide)⟩

/-- C4 is false on the code for negative configured counts: the conversion
to uint64 at line 178 happens before the less-than-1 check, so a configured
history count of -1 becomes 2^64 - 1 and is NOT coerced to 1; processing
two results then leaves a history of length 2, which a coerced maximum of 1
would forbid. -/
theorem claim_C4_counterexample :
    cfgNeg.profileHistoryCount (cfgNeg.trafficServerProfile "edge-1") = -1 ∧
    ((-1 : Int) < 1) ∧
    resolvedMaxHistory cfgNeg "edge-1" = 2 ^ 64 - 1 ∧
    resolvedMaxHistory cfgNeg "edge-1" ≠ 1 ∧
    ((processHealthResult extProbe idClock (mkState cfgNeg 0)
        [resA, resB]).state.healthHistory "edge-1").length = 2 := by
  refine ⟨rfl, by decide, by decide, by decide, by decide⟩

/-- C4 amended: only a configured history count whose uint64 conversion is
below 1 is coerced to 1. A count of exactly 0 is coerced to 1; a positive
count (below 2^63, the int64 upper bound) is used as is; a negative count
(at least -2^63, the int64 lower bound) wraps under the uint64 conversion
to count + 2^64, which is at least 2^63 and therefore not coerced. -/
theorem claim_C4_amended_coercion (cfg : TrafficMonitorConfigMap)
    (id : String) (cnt : Int)
    (hcnt : cnt = cfg.profileHistoryCount (cfg.trafficServerProfile id)) :
    (cnt = 0 → resolvedMaxHistory cfg id = 1) ∧
    (1 ≤ cnt → cnt < 2 ^ 63 → resolvedMaxHistory cfg id = cnt.toNat) ∧
    (-(2 ^ 63) ≤ cnt → cnt < 0 →
      resolvedMaxHistory cfg id = (cnt + 2 ^ 64).toNat ∧
      2 ^ 63 ≤ resolvedMaxHistory cfg id) := by
  unfold resolvedMaxHistory rawMaxHistory goUint64OfInt
  rw [← hcnt]
  refine ⟨?_, ?_, ?_⟩
  · intro h0
    subst h0
    decide
  · intro h1 h2
    have hmod : cnt % (2 : Int) ^ 64 = cnt := Int.emod_eq_of_lt (by omega) (by omega)
    rw [hmod]
    rw [if_neg (by omega)]
  · intro hlo hhi
    have hmod : cnt % (2 : Int) ^ 64 = cnt + 2 ^ 64 := by omega
    rw [hmod]
    have hge : (2 : Nat) ^ 63 ≤ (cnt + 2 ^ 64).toNat := by omega
    rw [if_neg (by omega)]
    exact ⟨rfl, hge⟩

/-- Witness for the amended C4: under the concrete configuration with count
-1, the resolved maximum is (-1 + 2^64).toNat and is at least 2^63. -/
theorem claim_C4_amended_coercion_witness :
    resolvedMaxHistory cfgNeg "edge-1" = ((-1 : Int) + 2 ^ 64).toNat ∧
    (2 : Nat) ^ 63 ≤ resolvedMaxHistory cfgNeg "edge-1" :=
  (claim_C4_amended_coercion cfgNeg "edge-1" (-1) rfl).2.2
    (by decide) (by decide)

/-- C5: processing the batch A, B, C for edge-1 (history count 2) from
empty history and no recorded end time yields history [C, B] (by poll IDs 3
then 2), increments the fetch counter by exactly 3, and leaves a duration
only for edge-1, equal to the gap between B's and C's processing instants -
for every external vitals computation and every clock. -/
theorem claim_C5_three_result_scenario (ext : Externals) (clock : Nat → Nat)
    (f : Nat) :
    ((c5Out ext clock f).state.healthHistory "edge-1").map (fun r => r.pollID) =
      [3, 2] ∧
    (c5Out ext clock f).state.fetchCount = f + 3 ∧
    (c5Out ext clock f).state.lastHealthDurations "edge-1" =
      some ((clock 2 : Int) - clock 1) ∧
    (∀ c, c ≠ "edge-1" →
      (c5Out ext clock f).state.lastHealthDurations c = none) := by
  refine ⟨rfl, rfl, rfl, ?_⟩
  intro c hc
  unfold c5Out
  rw [processHealthResult_durations_eq]
  have hproj := durationLoop_proj clock c
    (storedTrace ext (mkState cfgTwo f).monitorConfig
      (mkState cfgTwo f).healthHistory [resA, resB, resC]) 0
    (mkState cfgTwo f).lastHealthEndTimes (mkState cfgTwo f).lastHealthDurations
  have hsnd := congrArg Prod.snd hproj
  simp only at hsnd
  rw [hsnd]
  have hne : ∀ x : Result, x.id = "edge-1" → ¬(x.id = c) :=
    fun x hx h => hc (by rw [← h, hx])
  have hocc : occTimes clock c 0
      (storedTrace ext (mkState cfgTwo f).monitorConfig
        (mkState cfgTwo f).healthHistory [resA, resB, resC]) =
      occTimes clock c 0 [resA, resB, resC] :=
    occTimes_congr clock c _ _ 0
      (storedTrace_map_id ext (mkState cfgTwo f).monitorConfig [resA, resB, resC]
        (mkState cfgTwo f).healthHistory)
  rw [hocc]
  simp only [occTimes, if_neg (hne resA rfl), if_neg (hne resB rfl),
    if_neg (hne resC rfl)]
  rfl

/-- Witness for C5 at a concrete vitals computation, clock and fetch count;
the last conjunct is checked at the concrete cache mid. -/
theorem claim_C5_three_result_scenario_witness :
    ((c5Out extProbe idClock 0).state.healthHistory "edge-1").map
        (fun r => r.pollID) = [3, 2] ∧
    (c5Out extProbe idClock 0).state.lastHealthDurations "mid" = none :=
  ⟨(claim_C5_three_result_scenario extProbe idClock 0).1,
    (claim_C5_three_result_scenario extProbe idClock 0).2.2.2 "mid" (by decide)⟩

/-- C6: duration bookkeeping of processHealthResult. Writing occ for the
instants at which the batch's results for cache c are visited: the cache's
end time is unconditionally set to the instant of its last result; no
duration is recorded when the cache had no prior end time and at most one
result (its first ever); with two or more results the recorded duration is
the gap between the last two instants; with a prior end time and one result
the recorded duration is the elapsed time since that prior end time. -/
theorem claim_C6_duration_bookkeeping (ext : Externals) (clock : Nat → Nat)
    (st : HealthState) (results : List Result) (c : String) :
    (∀ (pre : List Nat) (t : Nat), occTimes clock c 0 results = pre ++ [t] →
      (processHealthResult ext clock st results).state.lastHealthEndTimes c =
        some t) ∧
    (st.lastHealthEndTimes c = none → (occTimes clock c 0 results).length ≤ 1 →
      (processHealthResult ext clock st results).state.lastHealthDurations c =
        st.lastHealthDurations c) ∧
    (∀ (pre : List Nat) (t' t : Nat), occTimes clock c 0 results = pre ++ [t', t] →
      (processHealthResult ext clock st results).state.lastHealthDurations c =
        some ((t : Int) - t')) ∧
    (∀ (t0 t : Nat), st.lastHealthEndTimes c = some t0 →
      occTimes clock c 0 results = [t] →
      (processHealthResult ext clock st results).state.lastHealthDurations c =
        some ((t : Int) - t0)) := by
  have hproj := durationLoop_proj clock c
    (storedTrace ext st.monitorConfig st.healthHistory results) 0
    st.lastHealthEndTimes st.lastHealthDurations
  have hfst := congrArg Prod.fst hproj
  have hsnd := congrArg Prod.snd hproj
  simp only at hfst hsnd
  have hocc : occTimes clock c 0
      (storedTrace ext st.monitorConfig st.healthHistory results) =
      occTimes clock c 0 results :=
    occTimes_congr clock c _ _ 0
      (storedTrace_map_id ext st.monitorConfig results st.healthHistory)
  rw [hocc] at hfst hsnd
  refine ⟨?_, ?_, ?_, ?_⟩
  · intro pre t hpt
    rw [processHealthResult_endTimes_eq, hfst, hpt]
    exact durTrace_fst_last t pre _ _
  · intro hnone hlen
    rw [processHealthResult_durations_eq, hsnd]
    cases hoc : occTimes clock c 0 results with
    | nil => rfl
    | cons t rest =>
      cases rest with
      | nil => rw [hnone]; rfl
      | cons u more => rw [hoc] at hlen; simp at hlen
  · intro pre t' t hpt
    rw [processHealthResult_durations_eq, hsnd, hpt]
    exact durTrace_snd_last_two t' t pre _ _
  · intro t0 t ht0 hocc1
    rw [processHealthResult_durations_eq, hsnd, hocc1, ht0]
    rfl

/-- Witness for C6: in the concrete three-result batch for edge-1 the end
time becomes the last instant 2 and the duration the gap between the last
two instants, 2 - 1. -/
theorem claim_C6_duration_bookkeeping_witness :
    (processHealthResult extProbe idClock (mkState cfgTwo 0)
        [resA, resB, resC]).state.lastHealthEndTimes "edge-1" = some 2 ∧
    (processHealthResult extProbe idClock (mkState cfgTwo 0)
        [resA, resB, resC]).state.lastHealthDurations "edge-1" =
      some ((2 : Int) - 1) :=
  ⟨(claim_C6_duration_bookkeeping extProbe idClock (mkState cfgTwo 0)
      [resA, resB, resC] "edge-1").1 [0, 1] 2 (by decide),
    (claim_C6_duration_bookkeeping extProbe idClock (mkState cfgTwo 0)
      [resA, resB, resC] "edge-1").2.2.1 [0] 1 2 (by decide)⟩

theorem histFold_append (ext : Externals) (cfg : TrafficMonitorConfigMap)
    (l1 l2 : List Result) :
    ∀ hist : String → List Result,
      histFold ext cfg hist (l1 ++ l2) =
        histFold ext cfg (histFold ext cfg hist l1) l2 := by
  induction l1 with
  | nil => intro hist; rfl
  | cons r rest ih =>
    intro hist
    rw [List.cons_append, histFold, histFold]
    exact ih _

theorem storedTrace_append (ext : Externals) (cfg : TrafficMonitorConfigMap)
    (l1 l2 : List Result) :
    ∀ hist : String → List Result,
      storedTrace ext cfg hist (l1 ++ l2) =
        storedTrace ext cfg hist l1 ++
          storedTrace ext cfg (histFold ext cfg hist l1) l2 := by
  induction l1 with
  | nil => intro hist; rfl
  | cons r rest ih =>
    intro hist
    rw [List.cons_append]
    simp only [storedTrace, histFold]
    rw [ih]
    simp

theorem processBatches_healthHistory (ext : Externals)
    (bs : List (List Result)) :
    ∀ (clocks : Nat → Nat → Nat) (st : HealthState),
      (processBatches ext clocks st bs).healthHistory =
        histFold ext st.monitorConfig st.healthHistory bs.flatten := by
  induction bs with
  | nil => intro clocks st; rfl
  | cons b bs ih =>
    intro clocks st
    rw [processBatches, ih, processHealthResult_monitorConfig_eq,
      processHealthResult_healthHistory_eq, List.flatten_cons, histFold_append]

theorem batchTrace_eq (ext : Externals) (bs : List (List Result)) :
    ∀ (clocks : Nat → Nat → Nat) (st : HealthState),
      batchTrace ext clocks st bs =
        storedTrace ext st.monitorConfig st.healthHistory bs.flatten := by
  induction bs with
  | nil => intro clocks st; rfl
  | cons b bs ih =>
    intro clocks st
    rw [batchTrace, ih, processHealthResult_monitorConfig_eq,
      processHealthResult_healthHistory_eq, processHealthResult_processed_eq,
      List.flatten_cons, storedTrace_append]

theorem storedFor_ne_nil_of_mem (c : String) (x : Result) (hid : x.id = c) :
    ∀ l : List Result, x ∈ l → storedFor c l ≠ [] := by
  intro l
  induction l with
  | nil => intro hx; cases hx
  | cons a rest ih =>
    intro hx
    rcases List.mem_cons.mp hx with h | h
    · subst h
      rw [storedFor, if_pos hid]
      simp
    · rw [storedFor]
      split
      · simp
      · exact ih h

/-- C3 is false on the code as stated: with a configured history count of
-1 the claimed bound max(1, configured_count) is 1, yet processing two
results for edge-1 leaves a history of length 2, because the count is
converted to uint64 (wrapping to 2^64 - 1) before the coercion check. -/
theorem claim_C3_counterexample :
    cfgNeg.profileHistoryCount (cfgNeg.trafficServerProfile "edge-1") = -1 ∧
    max (1 : Int) (-1) = 1 ∧
    ((processHealthResult extProbe idClock (mkState cfgNeg 0)
        [resA, resB]).state.healthHistory "edge-1").length = 2 ∧
    ¬((((processHealthResult extProbe idClock (mkState cfgNeg 0)
        [resA, resB]).state.healthHistory "edge-1").length : Int) ≤
      max (1 : Int) (-1)) := by decide

/-- C3 amended: after any sequence of batches processed from an empty
history, each cache's history is exactly the most-recent-first sequence of
its stored results truncated to the resolved maximum (the uint64-converted
configured count coerced up to 1, which equals max(1, configured_count)
whenever the count is non-negative); hence its length is bounded by that
maximum and is at least 1 as soon as one result for the cache was
processed. -/
theorem claim_C3_amended_history_invariant (ext : Externals)
    (clocks : Nat → Nat → Nat) (st : HealthState) (bs : List (List Result))
    (c : String) (h0 : st.healthHistory c = []) :
    (processBatches ext clocks st bs).healthHistory c =
      (storedFor c (batchTrace ext clocks st bs)).reverse.take
        (resolvedMaxHistory st.monitorConfig c) ∧
    ((processBatches ext clocks st bs).healthHistory c).length ≤
      resolvedMaxHistory st.monitorConfig c ∧
    ((∃ r ∈ bs.flatten, r.id = c) →
      1 ≤ ((processBatches ext clocks st bs).healthHistory c).length) := by
  have hchar : (processBatches ext clocks st bs).healthHistory c =
      (storedFor c (storedTrace ext st.monitorConfig st.healthHistory
        bs.flatten)).reverse.take (resolvedMaxHistory st.monitorConfig c) := by
    rw [processBatches_healthHistory]
    have h := histFold_char ext st.monitorConfig c bs.flatten st.healthHistory []
      (by simp [h0])
    simpa using h
  refine ⟨?_, ?_, ?_⟩
  · rw [hchar, batchTrace_eq]
  · rw [hchar, List.length_take]
    exact min_le_left _ _
  · rintro ⟨r, hr, hid⟩
    have hmem : c ∈ (storedTrace ext st.monitorConfig st.healthHistory
        bs.flatten).map (fun r => r.id) := by
      rw [storedTrace_map_id]
      exact List.mem_map.mpr ⟨r, hr, hid⟩
    obtain ⟨x, hx, hxid⟩ := List.mem_map.mp hmem
    have hne := storedFor_ne_nil_of_mem c x hxid _ hx
    have hlen : 1 ≤ (storedFor c (storedTrace ext st.monitorConfig
        st.healthHistory bs.flatten)).reverse.length := by
      rw [List.length_reverse]
      cases hsf : storedFor c (storedTrace ext st.monitorConfig
        st.healthHistory bs.flatten) with
      | nil => exact absurd hsf hne
      | cons y ys => simp
    rw [hchar, List.length_take]
    exact le_min (resolvedMaxHistory_pos st.monitorConfig c) hlen

/-- Witness for the amended C3: two batches A then B, C for edge-1 under
history count 2 give a history of length between 1 and the resolved
maximum. -/
theorem claim_C3_amended_history_invariant_witness :
    ((processBatches extProbe (fun _ i => i) (mkState cfgTwo 0)
        [[resA], [resB, resC]]).healthHistory "edge-1").length ≤
      resolvedMaxHistory (mkState cfgTwo 0).monitorConfig "edge-1" ∧
    1 ≤ ((processBatches extProbe (fun _ i => i) (mkState cfgTwo 0)
        [[resA], [resB, resC]]).healthHistory "edge-1").length :=
  ⟨(claim_C3_amended_history_invariant extProbe (fun _ i => i)
      (mkState cfgTwo 0) [[resA], [resB, resC]] "edge-1" rfl).2.1,
    (claim_C3_amended_history_invariant extProbe (fun _ i => i)
      (mkState cfgTwo 0) [[resA], [resB, resC]] "edge-1" rfl).2.2
      ⟨resA, by decide, rfl⟩⟩

theorem innerLoop_flush (trace : List ChanEvent) :
    ∀ batch : List Result, ChanEvent.empty ∉ trace →
      ChanEvent.tick ∈ trace →
      innerLoop batch trace = some (batch ++ recvsBeforeFlush trace) := by
  induction trace with
  | nil =>
    intro batch h1 h2
    cases h2
  | cons e rest ih =>
    intro batch h1 h2
    cases e with
    | tick =>
      rw [innerLoop, recvsBeforeFlush]
      simp
    | recv r =>
      have h1r : ChanEvent.empty ∉ rest :=
        fun h => h1 (List.mem_cons_of_mem _ h)
      have h2r : ChanEvent.tick ∈ rest := by
        rcases List.mem_cons.mp h2 with h | h
        · cases h
        · exact h
      rw [innerLoop, recvsBeforeFlush, ih (batch ++ [r]) h1r h2r]
      simp
    | empty =>
      exact absurd (List.mem_cons_self _ _) h1

/-- C9: whenever the flush timer fires, the accumulated batch is handed to
processHealthResult even under continuous input (a decision trace with no
empty-channel observation): as soon as the trace contains a tick, the
listen iteration flushes, and the processed batch is the opening batch
extended by exactly the results received before the tick - the batch is
never extended past the timer firing. -/
theorem claim_C9_flush_despite_continuous_input (ext : Externals)
    (clock : Nat → Nat) (st : HealthState) (batch : List Result)
    (trace : List ChanEvent) (hcont : ChanEvent.empty ∉ trace)
    (htick : ChanEvent.tick ∈ trace) :
    listenIteration ext clock st batch trace =
      some (processHealthResult ext clock st
        (batch ++ recvsBeforeFlush trace)) := by
  unfold listenIteration
  rw [innerLoop_flush trace batch hcont htick]
  rfl

/-- Witness for C9: a batch holding A, a trace that receives B and then
sees the timer fire, flushes the batch A, B to the processor. -/
theorem claim_C9_flush_despite_continuous_input_witness :
    listenIteration extProbe idClock (mkState cfgTwo 0) [resA]
      [ChanEvent.recv resB, ChanEvent.tick] =
      some (processHealthResult extProbe idClock (mkState cfgTwo 0)
        ([resA] ++ recvsBeforeFlush [ChanEvent.recv resB, ChanEvent.tick])) :=
  claim_C9_flush_despite_continuous_input extProbe idClock (mkState cfgTwo 0)
    [resA] [ChanEvent.recv resB, ChanEvent.tick] (by decide) (by decide)

end TrafficMonitor
